import Mathlib

/-!
Verification of the sandboxed code-execution session engine
(`src/llm/exec-js/src/lib.rs`) against its specification.

The Rust source is shallowly embedded: pure functions (`decode_content`,
entrypoint selection, the session registry operations) become Lean
functions; the interaction with the operating system inside
`execute_javascript` (temp-file creation, spawning `node`/`nodejs`,
writing stdin, the child's behaviour, the wall clock) is abstracted into
an explicit `World` oracle, and the function is modelled as a pure
function of that oracle.  Bytes are `Nat` values with `< 256` side
conditions where they matter; Rust `u32` arithmetic is `Nat` modulo
`2 ^ 32`.
-/

namespace GolemExec

/-! ## Data model (`bindings::golem::exec::types`) -/

inductive Encoding where
  | utf8
  | base64
  | hex
deriving DecidableEq

inductive LanguageKind where
  | javascript
  | python
deriving DecidableEq

structure Language where
  kind : LanguageKind
  version : Option String
deriving DecidableEq

/-- A file as it crosses the boundary: `content` is the raw byte sequence
(each entry `< 256` in well-formed inputs), `encoding` the declared
transport encoding. -/
structure File where
  name : String
  content : List Nat
  encoding : Option Encoding
deriving DecidableEq

structure Limits where
  time_ms : Option Nat
  memory_bytes : Option Nat
deriving DecidableEq

structure StageResult where
  stdout : String
  stderr : String
  exit_code : Option Int
  signal : Option String
deriving DecidableEq

structure ExecResult where
  compile : Option StageResult
  run : StageResult
  time_ms : Option Nat
  memory_bytes : Option Nat
deriving DecidableEq

/-- Internal error type (`ExecError` in the source). -/
inductive ExecError where
  | unsupportedLanguage (msg : String)
  | compilationFailed (msg : String)
  | runtimeError (msg : String)
  | timeout
  | resourceExceeded
  | internal (msg : String)
  | ioError (msg : String)
deriving DecidableEq

/-- External error taxonomy (`Error` in the WIT types). -/
inductive Error where
  | unsupportedLanguage
  | compilationFailed (r : StageResult)
  | runtimeFailed (r : StageResult)
  | timeout
  | resourceExceeded
  | internal (msg : String)
deriving DecidableEq

/-- `impl From<ExecError> for Error` (lib.rs lines 41-63). -/
def execErrorToError : ExecError → Error
  | ExecError.unsupportedLanguage _ => Error.unsupportedLanguage
  | ExecError.compilationFailed msg =>
      Error.compilationFailed
        { stdout := "", stderr := msg, exit_code := some 1, signal := none }
  | ExecError.runtimeError msg =>
      Error.runtimeFailed
        { stdout := "", stderr := msg, exit_code := some 1, signal := none }
  | ExecError.timeout => Error.timeout
  | ExecError.resourceExceeded => Error.resourceExceeded
  | ExecError.internal msg => Error.internal msg
  | ExecError.ioError msg => Error.internal ("IO error: " ++ msg)

/-! ## UTF-8 validation (Rust `String::from_utf8`) -/

/-- A UTF-8 continuation byte. -/
def isCont (b : Nat) : Bool := 0x80 ≤ b && b ≤ 0xBF

/-- States of the UTF-8 acceptor: `start` between code points, `tailN`
expecting `N` more continuation bytes, and the four constrained states
after a leading `E0`/`ED`/`F0`/`F4` byte (which restrict the next byte
beyond the plain continuation range, rejecting overlong forms and
surrogates). -/
inductive Utf8State where
  | start
  | tail1
  | tail2
  | tail3
  | e0
  | ed
  | f0
  | f4
deriving DecidableEq, BEq

/-- One byte of the UTF-8 acceptance automaton used by Rust's
`String::from_utf8` (RFC 3629). -/
def utf8Step (s : Utf8State) (b : Nat) : Option Utf8State :=
  match s with
  | Utf8State.start =>
    if b ≤ 0x7F then some Utf8State.start
    else if 0xC2 ≤ b ∧ b ≤ 0xDF then some Utf8State.tail1
    else if b = 0xE0 then some Utf8State.e0
    else if (0xE1 ≤ b ∧ b ≤ 0xEC) ∨ (0xEE ≤ b ∧ b ≤ 0xEF) then some Utf8State.tail2
    else if b = 0xED then some Utf8State.ed
    else if b = 0xF0 then some Utf8State.f0
    else if 0xF1 ≤ b ∧ b ≤ 0xF3 then some Utf8State.tail3
    else if b = 0xF4 then some Utf8State.f4
    else none
  | Utf8State.tail1 => if isCont b then some Utf8State.start else none
  | Utf8State.tail2 => if isCont b then some Utf8State.tail1 else none
  | Utf8State.tail3 => if isCont b then some Utf8State.tail2 else none
  | Utf8State.e0 => if 0xA0 ≤ b ∧ b ≤ 0xBF then some Utf8State.tail1 else none
  | Utf8State.ed => if 0x80 ≤ b ∧ b ≤ 0x9F then some Utf8State.tail1 else none
  | Utf8State.f0 => if 0x90 ≤ b ∧ b ≤ 0xBF then some Utf8State.tail2 else none
  | Utf8State.f4 => if 0x80 ≤ b ∧ b ≤ 0x8F then some Utf8State.tail2 else none

def utf8Run (s : Utf8State) : List Nat → Option Utf8State
  | [] => some s
  | b :: rest =>
    match utf8Step s b with
    | some s2 => utf8Run s2 rest
    | none => none

/-- Validity of a byte sequence as UTF-8 (Rust `String::from_utf8`
succeeds exactly on these inputs). -/
def validUtf8 (l : List Nat) : Bool :=
  utf8Run Utf8State.start l == some Utf8State.start

/-! ## Base64 (the `base64` crate's `general_purpose::STANDARD` engine) -/

/-- The standard-alphabet symbol for a sextet. -/
def encChar (s : Nat) : Nat :=
  if s < 26 then 65 + s
  else if s < 52 then 97 + (s - 26)
  else if s < 62 then 48 + (s - 52)
  else if s = 62 then 43
  else 47

/-- Inverse symbol lookup; `none` for bytes outside the standard alphabet
(in particular for the padding byte 61, ASCII `=`). -/
def decChar (c : Nat) : Option Nat :=
  if 65 ≤ c ∧ c ≤ 90 then some (c - 65)
  else if 97 ≤ c ∧ c ≤ 122 then some (c - 97 + 26)
  else if 48 ≤ c ∧ c ≤ 57 then some (c - 48 + 52)
  else if c = 43 then some 62
  else if c = 47 then some 63
  else none

/-- Standard base64 encoding with padding, three input bytes per four
output symbols. -/
def b64encode : List Nat → List Nat
  | [] => []
  | [x] => [encChar (x / 4), encChar (x % 4 * 16), 61, 61]
  | [x, y] => [encChar (x / 4), encChar (x % 4 * 16 + y / 16), encChar (y % 16 * 4), 61]
  | x :: y :: z :: rest =>
      encChar (x / 4) :: encChar (x % 4 * 16 + y / 16) ::
        encChar (y % 16 * 4 + z / 64) :: encChar (z % 64) :: b64encode rest

/-- Strict standard base64 decoding: four-symbol blocks, padding only in
the final block, non-canonical trailing bits rejected (the crate's
`InvalidLastSymbol`), length not a multiple of four rejected. -/
def b64decode : List Nat → Option (List Nat)
  | [] => some []
  | a :: b :: c :: d :: rest =>
    match decChar a, decChar b with
    | some sa, some sb =>
      if c = 61 then
        if d = 61 then
          if rest = [] ∧ sb % 16 = 0 then some [sa * 4 + sb / 16] else none
        else none
      else
        match decChar c with
        | some sc =>
          if d = 61 then
            if rest = [] ∧ sc % 4 = 0 then
              some [sa * 4 + sb / 16, sb % 16 * 16 + sc / 4]
            else none
          else
            match decChar d with
            | some sd =>
              match b64decode rest with
              | some r =>
                  some ((sa * 4 + sb / 16) :: (sb % 16 * 16 + sc / 4) ::
                    (sc % 4 * 64 + sd) :: r)
              | none => none
            | none => none
        | none => none
    | _, _ => none
  | _ => none

/-- Lowercase hex digit symbol (the `hex` crate's `encode`). -/
def hexDigitChar (d : Nat) : Nat := if d < 10 then 48 + d else 87 + d

/-- Hex digit value; accepts both cases (the `hex` crate's `decode`). -/
def hexDigitVal (c : Nat) : Option Nat :=
  if 48 ≤ c ∧ c ≤ 57 then some (c - 48)
  else if 97 ≤ c ∧ c ≤ 102 then some (c - 97 + 10)
  else if 65 ≤ c ∧ c ≤ 70 then some (c - 65 + 10)
  else none

def hexEncode : List Nat → List Nat
  | [] => []
  | b :: rest => hexDigitChar (b / 16) :: hexDigitChar (b % 16) :: hexEncode rest

/-- `hex::decode`: pairs of hex digits; odd length or a non-digit fails. -/
def hexDecode : List Nat → Option (List Nat)
  | [] => some []
  | hi :: lo :: rest =>
    match hexDigitVal hi, hexDigitVal lo with
    | some h, some l =>
      match hexDecode rest with
      | some r => some ((h * 16 + l) :: r)
      | none => none
    | _, _ => none
  | [_] => none

/-! ## Content decoding (`decode_content`, lib.rs lines 65-82) -/

/-- `decode_content`: dispatch on the declared encoding.  `utf8` or no
encoding passes the bytes through; `base64`/`hex` first require the
content bytes to be UTF-8 text (`String::from_utf8`), then decode. -/
def decode_content (file : File) : Except ExecError (List Nat) :=
  match file.encoding with
  | some Encoding.utf8 | none => Except.ok file.content
  | some Encoding.base64 =>
    if validUtf8 file.content then
      match b64decode file.content with
      | some bs => Except.ok bs
      | none => Except.error (ExecError.internal "Base64 decode error")
    else Except.error (ExecError.internal "Invalid UTF-8 in base64 content")
  | some Encoding.hex =>
    if validUtf8 file.content then
      match hexDecode file.content with
      | some bs => Except.ok bs
      | none => Except.error (ExecError.internal "Hex decode error")
    else Except.error (ExecError.internal "Invalid UTF-8 in hex content")

/-! ## Process execution engine (`execute_javascript`, lib.rs lines 84-197)

The interaction with the operating system is abstracted into a `World`
oracle: whether temp-file creation, spawning, the stdin write and the
kill succeed, when the child exits on the wall clock, what it writes to
its streams and which exit status it reports.  `execute_javascript` is
then a pure function of the oracle and its Rust arguments. -/

structure World where
  /-- Whether this is the `target_arch = "wasm32"` build (which has no
  `wait_timeout` and falls back to a plain wait). -/
  wasm : Bool
  /-- Path of the `NamedTempFile` holding the source. -/
  tempPath : String
  /-- Whether `NamedTempFile::new()` succeeds. -/
  tempFileOk : Bool
  /-- Whether spawning the primary `node` binary succeeds. -/
  nodeSpawnOk : Bool
  /-- Whether spawning the fallback `nodejs` binary succeeds. -/
  nodejsSpawnOk : Bool
  /-- Whether writing the provided stdin bytes succeeds. -/
  stdinWriteOk : Bool
  /-- Whether `child.kill()` succeeds. -/
  killOk : Bool
  /-- Wall-clock milliseconds until the child exits. -/
  childExitMs : Nat
  /-- Captured standard output, after lossy UTF-8 decoding. -/
  childStdout : String
  /-- Captured standard error, after lossy UTF-8 decoding. -/
  childStderr : String
  /-- `output.status.code()`: `none` when the process was killed by a
  signal and could not report an exit status. -/
  childCode : Option Int
  /-- Wall-clock milliseconds measured by `start_time.elapsed()`. -/
  elapsedMs : Nat
deriving DecidableEq

/-- The `StageResult` built at lib.rs lines 188-193: note
`exit_code := some (code.getD (-1))`, the embedding of
`Some(output.status.code().unwrap_or(-1))`. -/
def mkStageResult (w : World) : StageResult :=
  { stdout := w.childStdout, stderr := w.childStderr,
    exit_code := some (w.childCode.getD (-1)), signal := none }

/-- The `ExecResult` built at lib.rs lines 186-196. -/
def mkExecResult (w : World) : ExecResult :=
  { compile := none, run := mkStageResult w,
    time_ms := some w.elapsedMs, memory_bytes := none }

/-- A child-process launch request: program name, argument vector, the
environment entries layered over the ambient environment
(`Command::env`), and whether stdin is piped. -/
structure Cmd where
  program : String
  args : List String
  envOverlay : List (String × String)
  stdinPiped : Bool
deriving DecidableEq

/-- The primary command (lib.rs lines 98-109): `node`, the temp-file
path, the caller's args, and every caller env entry via `Command::env`. -/
def primaryCmd (tempPath : String) (args : List String)
    (envVars : List (String × String)) (piped : Bool) : Cmd :=
  { program := "node", args := tempPath :: args, envOverlay := envVars, stdinPiped := piped }

/-- The fallback command built inside `or_else` (lib.rs lines 117-127 and
133-143): `nodejs`, the temp-file path and the caller's args — the
caller's env entries are not applied to it. -/
def fallbackCmd (tempPath : String) (args : List String) (piped : Bool) : Cmd :=
  { program := "nodejs", args := tempPath :: args, envOverlay := [], stdinPiped := piped }

/-- Which command actually gets spawned: the primary if `node` spawns,
else the fallback if `nodejs` spawns, else nothing. -/
def launchedCmd (w : World) (args : List String)
    (envVars : List (String × String)) (piped : Bool) : Option Cmd :=
  if w.nodeSpawnOk then some (primaryCmd w.tempPath args envVars piped)
  else if w.nodejsSpawnOk then some (fallbackCmd w.tempPath args piped)
  else none

/-- `execute_javascript`: materialize the source, spawn (with one
fallback), write stdin if present, then wait — bounded by
`constraints.time_ms` on native builds, unbounded on wasm32 builds and
when no limit is given.  On a native-build timeout the child is killed
and `Timeout` is returned with no result; a failing kill surfaces as
`Internal`. -/
def execute_javascript (w : World) (code : List Nat) (args : List String)
    (envVars : List (String × String)) (stdin : Option String)
    (constraints : Option Limits) : Except ExecError ExecResult :=
  if w.tempFileOk = false then Except.error (ExecError.ioError "tempfile creation failed")
  else
    match launchedCmd w args envVars stdin.isSome with
    | none => Except.error (ExecError.ioError "spawn failed")
    | some _ =>
      if stdin.isSome ∧ w.stdinWriteOk = false then
        Except.error (ExecError.ioError "stdin write failed")
      else
        match constraints with
        | some c =>
          match c.time_ms with
          | some t =>
            if w.wasm then Except.ok (mkExecResult w)
            else if w.childExitMs ≤ t then Except.ok (mkExecResult w)
            else if w.killOk then Except.error ExecError.timeout
            else Except.error (ExecError.internal "Failed to kill process")
          | none => Except.ok (mkExecResult w)
        | none => Except.ok (mkExecResult w)

/-! ## Association-list maps (embedding of `std::collections::HashMap`)

A `HashMap` is modelled as an association list whose keys are kept
duplicate-free: `mapInsert` replaces in place, `mapRemove` deletes the
entry, `mapKeys` is `keys()`. -/

def mapLookup {κ α : Type} [DecidableEq κ] (k : κ) : List (κ × α) → Option α
  | [] => none
  | (k2, v) :: rest => if k2 = k then some v else mapLookup k rest

def mapInsert {κ α : Type} [DecidableEq κ] (k : κ) (v : α) : List (κ × α) → List (κ × α)
  | [] => [(k, v)]
  | (k2, v2) :: rest => if k2 = k then (k, v) :: rest else (k2, v2) :: mapInsert k v rest

def mapRemove {κ α : Type} [DecidableEq κ] (k : κ) : List (κ × α) → List (κ × α)
  | [] => []
  | (k2, v2) :: rest => if k2 = k then rest else (k2, v2) :: mapRemove k rest

def mapKeys {κ α : Type} (m : List (κ × α)) : List κ := m.map Prod.fst

/-- Sequential application of env entries (`Command::env` per entry,
merged over the ambient environment at spawn time). -/
def applyEnvList : List (String × String) → List (String × String) → List (String × String)
  | m, [] => m
  | m, (k, v) :: rest => applyEnvList (mapInsert k v m) rest

/-- The environment the launched child actually sees given the ambient
environment of the engine process. -/
def childEnv (ambient : List (String × String)) (c : Cmd) : List (String × String) :=
  applyEnvList ambient c.envOverlay

/-! ## Session registry (lib.rs lines 199-349) -/

structure ExecutionSession where
  language : Language
  files : List (String × List Nat)
  working_dir : String
deriving DecidableEq

/-- `ExecutionSession::new` (lib.rs lines 206-216). -/
def ExecutionSession.new (language : Language) : Except Error ExecutionSession :=
  if language.kind ≠ LanguageKind.javascript then Except.error Error.unsupportedLanguage
  else Except.ok { language := language, files := [], working_dir := "/" }

/-- `ExecutionSession::upload_file` (lib.rs lines 218-222): decode, then
insert under the file's name. -/
def ExecutionSession.upload_file (s : ExecutionSession) (file : File) :
    Except Error ExecutionSession :=
  match decode_content file with
  | Except.error e => Except.error (execErrorToError e)
  | Except.ok content => Except.ok { s with files := mapInsert file.name content s.files }

/-- `ExecutionSession::execute_code` (lib.rs lines 224-233). -/
def ExecutionSession.execute_code (w : World) (s : ExecutionSession) (entrypoint : String)
    (args : List String) (env : List (String × String)) (stdin : Option String)
    (constraints : Option Limits) : Except Error ExecResult :=
  match mapLookup entrypoint s.files with
  | none => Except.error (Error.internal ("Entrypoint file " ++ entrypoint ++ " not found"))
  | some code_content =>
    if validUtf8 code_content then
      match execute_javascript w code_content args env stdin constraints with
      | Except.ok r => Except.ok r
      | Except.error e => Except.error (execErrorToError e)
    else Except.error (Error.internal "Invalid UTF-8 in JavaScript code")

/-- The process-wide registry: `SESSIONS` and `SESSION_COUNTER`
(lib.rs lines 237-238). -/
structure RegistryState where
  sessions : List (Nat × ExecutionSession)
  counter : Nat
deriving DecidableEq

/-- `static mut SESSION_COUNTER: u32 = 1` with an empty session table. -/
def initialState : RegistryState := { sessions := [], counter := 1 }

def u32Mod : Nat := 4294967296

/-- `next_session_id` (lib.rs lines 249-255): return the counter, then
increment it — `u32` arithmetic, so modulo `2 ^ 32`. -/
def next_session_id (st : RegistryState) : Nat × RegistryState :=
  (st.counter, { st with counter := (st.counter + 1) % u32Mod })

/-- `Session::create` (lib.rs lines 290-295): allocate the handle first,
then validate the language; on success insert the fresh session. -/
def Session.create (st : RegistryState) (lang : Language) :
    Except Error Nat × RegistryState :=
  let p := next_session_id st
  match ExecutionSession.new lang with
  | Except.error e => (Except.error e, p.2)
  | Except.ok s =>
      (Except.ok p.1, { p.2 with sessions := mapInsert p.1 s p.2.sessions })

/-- `Session::upload` (lib.rs lines 297-302). -/
def Session.upload (st : RegistryState) (h : Nat) (file : File) :
    Except Error Unit × RegistryState :=
  match mapLookup h st.sessions with
  | none => (Except.error (Error.internal "Session not found"), st)
  | some s =>
    match ExecutionSession.upload_file s file with
    | Except.error e => (Except.error e, st)
    | Except.ok s2 => (Except.ok (), { st with sessions := mapInsert h s2 st.sessions })

/-- `Session::run` (lib.rs lines 304-317); reads the session, never
mutates the registry. -/
def Session.run (w : World) (st : RegistryState) (h : Nat) (entrypoint : String)
    (args : List String) (stdin : Option String) (env : List (String × String))
    (constraints : Option Limits) : Except Error ExecResult :=
  match mapLookup h st.sessions with
  | none => Except.error (Error.internal "Session not found")
  | some s => ExecutionSession.execute_code w s entrypoint args env stdin constraints

/-- `Session::download` (lib.rs lines 319-327); pure read, no execution
path is involved. -/
def Session.download (st : RegistryState) (h : Nat) (path : String) :
    Except Error (List Nat) :=
  match mapLookup h st.sessions with
  | none => Except.error (Error.internal "Session not found")
  | some s =>
    match mapLookup path s.files with
    | some bytes => Except.ok bytes
    | none => Except.error (Error.internal ("File " ++ path ++ " not found"))

/-- `Session::list_files` (lib.rs lines 329-335): every stored file name;
the `dir` argument is not consulted. -/
def Session.list_files (st : RegistryState) (h : Nat) (dir : String) :
    Except Error (List String) :=
  match mapLookup h st.sessions with
  | none => Except.error (Error.internal "Session not found")
  | some s => Except.ok (mapKeys s.files)

/-- `Session::set_working_dir` (lib.rs lines 337-344). -/
def Session.set_working_dir (st : RegistryState) (h : Nat) (path : String) :
    Except Error Unit × RegistryState :=
  match mapLookup h st.sessions with
  | none => (Except.error (Error.internal "Session not found"), st)
  | some s =>
      (Except.ok (), { st with sessions := mapInsert h { s with working_dir := path } st.sessions })

/-- `Session::close` (lib.rs lines 346-348): plain removal; the signature
has no error component, so closing an unknown handle cannot fail. -/
def Session.close (st : RegistryState) (h : Nat) : RegistryState :=
  { st with sessions := mapRemove h st.sessions }

/-- Predicate of the convention match at lib.rs line 274. -/
def isMainName (f : File) : Bool := f.name == "main.js" || f.name == "index.js"

/-- Entrypoint selection of `Executor::run` (lib.rs lines 273-276): first
convention-named file, else the first supplied file. -/
def selectMain (files : List File) : Option File :=
  match files.find? isMainName with
  | some f => some f
  | none => files.head?

/-- Decode the selected file and run it (lib.rs lines 278-283). -/
def execFile (w : World) (f : File) (args : List String)
    (env : List (String × String)) (stdin : Option String)
    (constraints : Option Limits) : Except Error ExecResult :=
  match decode_content f with
  | Except.error e => Except.error (execErrorToError e)
  | Except.ok content =>
    if validUtf8 content then
      match execute_javascript w content args env stdin constraints with
      | Except.ok r => Except.ok r
      | Except.error e => Except.error (execErrorToError e)
    else Except.error (Error.internal "Invalid UTF-8 in JavaScript code")

/-- `Executor::run` (lib.rs lines 260-284). -/
def Executor.run (w : World) (lang : Language) (files : List File)
    (stdin : Option String) (args : List String) (env : List (String × String))
    (constraints : Option Limits) : Except Error ExecResult :=
  if lang.kind ≠ LanguageKind.javascript then Except.error Error.unsupportedLanguage
  else
    match selectMain files with
    | none => Except.error (Error.internal "No JavaScript files provided")
    | some mainFile => execFile w mainFile args env stdin constraints

/-- The JavaScript language value used to drive iterated creates. -/
def jsLang : Language := { kind := LanguageKind.javascript, version := none }

/-- The registry after `n` successful `Session::create` calls starting
from the initial process state. -/
def createN : Nat → RegistryState
  | 0 => initialState
  | n + 1 => (Session.create (createN n) jsLang).2

/-- The handle returned by create call number `n` (0-indexed): the value
of the counter just before that call. -/
def nthHandle (n : Nat) : Nat := (createN n).counter

/-- A wasm32-build world whose child is still running at the 5 ms mark. -/
def wWasmSlow : World :=
  { wasm := true, tempPath := "/tmp/exec.js", tempFileOk := true,
    nodeSpawnOk := true, nodejsSpawnOk := true, stdinWriteOk := true,
    killOk := true, childExitMs := 100, childStdout := "", childStderr := "",
    childCode := some 0, elapsedMs := 100 }

/-- A native-build world whose child is still running at the 5 ms mark. -/
def wNativeSlow : World :=
  { wasm := false, tempPath := "/tmp/exec.js", tempFileOk := true,
    nodeSpawnOk := true, nodejsSpawnOk := true, stdinWriteOk := true,
    killOk := true, childExitMs := 100, childStdout := "", childStderr := "",
    childCode := none, elapsedMs := 5 }

/-- A world whose child was killed by a signal: `output.status.code()` is
`None`. -/
def wKilled : World :=
  { wasm := false, tempPath := "/tmp/exec.js", tempFileOk := true,
    nodeSpawnOk := true, nodejsSpawnOk := true, stdinWriteOk := true,
    killOk := true, childExitMs := 3, childStdout := "", childStderr := "",
    childCode := none, elapsedMs := 3 }

/-- A world where the primary `node` binary is missing but the fallback
`nodejs` binary spawns. -/
def wFallback : World :=
  { wasm := false, tempPath := "/tmp/exec.js", tempFileOk := true,
    nodeSpawnOk := false, nodejsSpawnOk := true, stdinWriteOk := true,
    killOk := true, childExitMs := 3, childStdout := "", childStderr := "",
    childCode := some 0, elapsedMs := 3 }

/-- Files used to exercise the entrypoint-selection convention. -/
def fPlain : File := { name := "a.js", content := [104], encoding := none }

def fIndex : File := { name := "index.js", content := [105], encoding := none }

/-- A session already holding `a.js` with decoded bytes `[104]`. -/
def stWithA : RegistryState :=
  { sessions := [(1, { language := jsLang, files := [("a.js", [104])], working_dir := "/" })],
    counter := 2 }

/-- The `a.js` upload whose decoded bytes are `[104, 105]` (base64 text
`aGk=`). -/
def fGoodB64 : File := { name := "a.js", content := [97, 71, 107, 61], encoding := some Encoding.base64 }

/-- A second upload to the name `a.js`, with different content (plain
utf8 bytes `[106]`). -/
def fGood2 : File := { name := "a.js", content := [106], encoding := none }

/-- An upload whose content is not valid base64 (`!` is outside the
alphabet), targeting the already-occupied name `a.js`. -/
def fBadB64 : File := { name := "a.js", content := [33], encoding := some Encoding.base64 }

/-! ## Lemmas and claim theorems -/

theorem utf8Run_of_ascii :
    ∀ l : List Nat, (∀ c ∈ l, c < 128) → utf8Run Utf8State.start l = some Utf8State.start := by
  intro l
  induction l with
  | nil => intro _; rfl
  | cons b rest ih =>
    intro h
    have hb : b < 128 := h b (List.mem_cons_self b rest)
    have hb' : b ≤ 0x7F := by omega
    simp only [utf8Run, utf8Step, if_pos hb']
    exact ih fun c hc => h c (List.mem_cons_of_mem b hc)

theorem validUtf8_of_ascii (l : List Nat) (h : ∀ c ∈ l, c < 128) : validUtf8 l = true := by
  simp only [validUtf8, utf8Run_of_ascii l h]
  rfl

theorem decChar_encChar_fin : ∀ s : Fin 64, decChar (encChar s.1) = some s.1 := by decide

theorem decChar_encChar_of_lt {s : Nat} (h : s < 64) : decChar (encChar s) = some s :=
  decChar_encChar_fin ⟨s, h⟩

theorem encChar_ne_61 (s : Nat) : ¬ encChar s = 61 := by
  unfold encChar
  split
  · omega
  · split
    · omega
    · split
      · omega
      · split
        · omega
        · omega

theorem encChar_lt_128 (s : Nat) : encChar s < 128 := by
  unfold encChar
  split
  · omega
  · split
    · omega
    · split
      · omega
      · split
        · omega
        · omega

theorem b64encode_ascii : ∀ l : List Nat, ∀ c ∈ b64encode l, c < 128 := by
  intro l
  induction l using b64encode.induct with
  | case1 =>
    intro c hc
    simp [b64encode] at hc
  | case2 x =>
    intro c hc
    simp only [b64encode, List.mem_cons, List.not_mem_nil, or_false] at hc
    rcases hc with h | h | h | h <;> subst h <;> first | exact encChar_lt_128 _ | omega
  | case3 x y =>
    intro c hc
    simp only [b64encode, List.mem_cons, List.not_mem_nil, or_false] at hc
    rcases hc with h | h | h | h <;> subst h <;> first | exact encChar_lt_128 _ | omega
  | case4 x y z rest ih =>
    intro c hc
    simp only [b64encode, List.mem_cons] at hc
    rcases hc with h | h | h | h | h
    · subst h; exact encChar_lt_128 _
    · subst h; exact encChar_lt_128 _
    · subst h; exact encChar_lt_128 _
    · subst h; exact encChar_lt_128 _
    · exact ih c h

theorem b64_roundtrip : ∀ l : List Nat, (∀ b ∈ l, b < 256) → b64decode (b64encode l) = some l := by
  intro l
  induction l using b64encode.induct with
  | case1 => intro _; rfl
  | case2 x =>
    intro h
    have hx : x < 256 := h x (by simp)
    simp only [b64encode, b64decode,
      decChar_encChar_of_lt (show x / 4 < 64 by omega),
      decChar_encChar_of_lt (show x % 4 * 16 < 64 by omega)]
    simp only [if_true, true_and]
    rw [if_pos (show x % 4 * 16 % 16 = 0 by omega)]
    simp only [Option.some.injEq, List.cons.injEq, and_true]
    omega
  | case3 x y =>
    intro h
    have hx : x < 256 := h x (by simp)
    have hy : y < 256 := h y (by simp)
    simp only [b64encode, b64decode,
      decChar_encChar_of_lt (show x / 4 < 64 by omega),
      decChar_encChar_of_lt (show x % 4 * 16 + y / 16 < 64 by omega),
      decChar_encChar_of_lt (show y % 16 * 4 < 64 by omega),
      encChar_ne_61]
    simp only [if_false, if_true, true_and]
    rw [if_pos (show y % 16 * 4 % 4 = 0 by omega)]
    simp only [Option.some.injEq, List.cons.injEq, and_true]
    exact ⟨by omega, by omega⟩
  | case4 x y z rest ih =>
    intro h
    have hx : x < 256 := h x (by simp)
    have hy : y < 256 := h y (by simp)
    have hz : z < 256 := h z (by simp)
    have hrest : ∀ b ∈ rest, b < 256 := fun b hb => h b (by simp [hb])
    simp only [b64encode, b64decode,
      decChar_encChar_of_lt (show x / 4 < 64 by omega),
      decChar_encChar_of_lt (show x % 4 * 16 + y / 16 < 64 by omega),
      decChar_encChar_of_lt (show y % 16 * 4 + z / 64 < 64 by omega),
      decChar_encChar_of_lt (show z % 64 < 64 by omega),
      encChar_ne_61, ih hrest]
    simp only [if_false, if_true, true_and]
    simp only [Option.some.injEq, List.cons.injEq, and_true]
    exact ⟨by omega, by omega, by omega⟩

theorem hexDigitVal_hexDigitChar_fin : ∀ d : Fin 16, hexDigitVal (hexDigitChar d.1) = some d.1 := by
  decide

theorem hexDigitVal_hexDigitChar_of_lt {d : Nat} (h : d < 16) :
    hexDigitVal (hexDigitChar d) = some d :=
  hexDigitVal_hexDigitChar_fin ⟨d, h⟩

theorem hexDigitChar_lt_128 {d : Nat} (h : d < 16) : hexDigitChar d < 128 := by
  unfold hexDigitChar
  split <;> omega

theorem hexEncode_ascii : ∀ l : List Nat, (∀ b ∈ l, b < 256) → ∀ c ∈ hexEncode l, c < 128 := by
  intro l
  induction l with
  | nil => intro _ c hc; simp [hexEncode] at hc
  | cons b rest ih =>
    intro h c hc
    have hb : b < 256 := h b (by simp)
    simp only [hexEncode, List.mem_cons] at hc
    rcases hc with h1 | h1 | h1
    · subst h1; exact hexDigitChar_lt_128 (by omega)
    · subst h1; exact hexDigitChar_lt_128 (by omega)
    · exact ih (fun b2 hb2 => h b2 (by simp [hb2])) c h1

theorem hex_roundtrip : ∀ l : List Nat, (∀ b ∈ l, b < 256) → hexDecode (hexEncode l) = some l := by
  intro l
  induction l with
  | nil => intro _; rfl
  | cons b rest ih =>
    intro h
    have hb : b < 256 := h b (by simp)
    simp only [hexEncode, hexDecode,
      hexDigitVal_hexDigitChar_of_lt (show b / 16 < 16 by omega),
      hexDigitVal_hexDigitChar_of_lt (show b % 16 < 16 by omega),
      ih (fun b2 hb2 => h b2 (by simp [hb2]))]
    simp only [Option.some.injEq, List.cons.injEq, and_true]
    omega

/-! ## Association-list lemmas -/

theorem mapLookup_insert_self {κ α : Type} [DecidableEq κ] (k : κ) (v : α)
    (m : List (κ × α)) : mapLookup k (mapInsert k v m) = some v := by
  induction m with
  | nil => simp [mapInsert, mapLookup]
  | cons p rest ih =>
    obtain ⟨k2, v2⟩ := p
    by_cases hk : k2 = k
    · subst hk; simp [mapInsert, mapLookup]
    · simp [mapInsert, mapLookup, hk, ih]

theorem mapLookup_insert_ne {κ α : Type} [DecidableEq κ] {j k : κ} (v : α)
    (m : List (κ × α)) (hne : j ≠ k) :
    mapLookup j (mapInsert k v m) = mapLookup j m := by
  have hkj : ¬ k = j := fun h => hne h.symm
  induction m with
  | nil => simp [mapInsert, mapLookup, hkj]
  | cons p rest ih =>
    obtain ⟨k2, v2⟩ := p
    by_cases hk : k2 = k
    · subst hk
      simp only [mapInsert, if_pos rfl, mapLookup, if_neg hkj]
    · simp only [mapInsert, if_neg hk, mapLookup]
      by_cases hj : k2 = j
      · simp [hj]
      · simp [hj, ih]

theorem mapKeys_mapInsert {κ α : Type} [DecidableEq κ] (k : κ) (v : α)
    (m : List (κ × α)) :
    mapKeys (mapInsert k v m) =
      if k ∈ mapKeys m then mapKeys m else mapKeys m ++ [k] := by
  induction m with
  | nil => simp [mapInsert, mapKeys]
  | cons p rest ih =>
    obtain ⟨k2, v2⟩ := p
    by_cases hk : k2 = k
    · subst hk; simp [mapInsert, mapKeys]
    · have hne : ¬ k = k2 := fun h => hk h.symm
      simp only [mapInsert, if_neg hk, mapKeys, List.map_cons, List.mem_cons]
      simp only [mapKeys] at ih
      rw [ih]
      by_cases hmem : k ∈ rest.map Prod.fst
      · simp [hmem, hne]
      · simp [hmem, hne]

theorem mapKeys_mapInsert_nodup {κ α : Type} [DecidableEq κ] (k : κ) (v : α)
    (m : List (κ × α)) (h : (mapKeys m).Nodup) :
    (mapKeys (mapInsert k v m)).Nodup := by
  rw [mapKeys_mapInsert]
  by_cases hmem : k ∈ mapKeys m
  · simp [hmem, h]
  · simp [hmem, List.nodup_append, h]

theorem count_mapKeys_mapInsert {κ α : Type} [DecidableEq κ] (k : κ) (v : α)
    (m : List (κ × α)) (h : (mapKeys m).Nodup) :
    (mapKeys (mapInsert k v m)).count k = 1 := by
  rw [mapKeys_mapInsert]
  by_cases hmem : k ∈ mapKeys m
  · simp only [hmem, if_pos]
    exact List.count_eq_one_of_mem h hmem
  · simp only [hmem, if_neg, not_false_iff]
    rw [List.count_append]
    rw [List.count_eq_zero_of_not_mem hmem]
    simp

theorem mapRemove_of_lookup_none {κ α : Type} [DecidableEq κ] (k : κ)
    (m : List (κ × α)) (h : mapLookup k m = none) : mapRemove k m = m := by
  induction m with
  | nil => rfl
  | cons p rest ih =>
    obtain ⟨k2, v2⟩ := p
    by_cases hk : k2 = k
    · subst hk; simp [mapLookup] at h
    · simp only [mapLookup, if_neg hk] at h
      simp [mapRemove, hk, ih h]

theorem mapLookup_applyEnvList_not_mem :
    ∀ (kvs m : List (String × String)) (j : String),
      j ∉ kvs.map Prod.fst →
      mapLookup j (applyEnvList m kvs) = mapLookup j m := by
  intro kvs
  induction kvs with
  | nil => intro m j _; rfl
  | cons p rest ih =>
    intro m j h
    obtain ⟨k, v⟩ := p
    simp only [List.map_cons, List.mem_cons] at h
    push_neg at h
    simp only [applyEnvList]
    rw [ih (mapInsert k v m) j h.2, mapLookup_insert_ne v m h.1]

theorem mapLookup_applyEnvList_mem :
    ∀ (kvs m : List (String × String)) (j v : String),
      (kvs.map Prod.fst).Nodup → (j, v) ∈ kvs →
      mapLookup j (applyEnvList m kvs) = some v := by
  intro kvs
  induction kvs with
  | nil => intro m j v _ hmem; simp at hmem
  | cons p rest ih =>
    intro m j v hnd hmem
    obtain ⟨k, w⟩ := p
    simp only [List.map_cons, List.nodup_cons] at hnd
    rcases List.mem_cons.mp hmem with heq | hmem2
    · rw [Prod.mk.injEq] at heq
      obtain ⟨rfl, rfl⟩ := heq
      simp only [applyEnvList]
      rw [mapLookup_applyEnvList_not_mem rest (mapInsert j v m) j hnd.1,
        mapLookup_insert_self]
    · simp only [applyEnvList]
      exact ih (mapInsert k w m) j v hnd.2 hmem2

/-! ## Registry counter lemmas -/

theorem Session_create_js (st : RegistryState) :
    Session.create st jsLang =
      (Except.ok st.counter,
        { sessions := mapInsert st.counter
            { language := jsLang, files := [], working_dir := "/" } st.sessions,
          counter := (st.counter + 1) % u32Mod }) := rfl

theorem createN_counter : ∀ n : Nat, (createN n).counter = (1 + n) % u32Mod := by
  intro n
  induction n with
  | zero =>
    show (1 : Nat) = (1 + 0) % u32Mod
    simp [u32Mod]
  | succ n ih =>
    show (Session.create (createN n) jsLang).2.counter = (1 + (n + 1)) % u32Mod
    rw [Session_create_js]
    show ((createN n).counter + 1) % u32Mod = (1 + (n + 1)) % u32Mod
    rw [ih]
    simp only [u32Mod]
    omega

theorem nthHandle_eq (n : Nat) (h : n + 1 < u32Mod) : nthHandle n = n + 1 := by
  show (createN n).counter = n + 1
  rw [createN_counter]
  simp only [u32Mod] at h ⊢
  omega

/-- Every `Except.ok` result of `execute_javascript` is exactly
`mkExecResult w`. -/
theorem execute_javascript_ok_eq (w : World) (code : List Nat) (args : List String)
    (envVars : List (String × String)) (stdin : Option String)
    (constraints : Option Limits) (r : ExecResult)
    (h : execute_javascript w code args envVars stdin constraints = Except.ok r) :
    r = mkExecResult w := by
  unfold execute_javascript at h
  repeat' split at h
  all_goals simp_all

/-- C1, counterexample: on the `target_arch = "wasm32"` build
(lib.rs lines 156-160) the time limit is discarded and the call waits for
the exit, so a child that outlives `time_ms = 5` still produces a normal
`ExecResult` instead of `Timeout`. -/
theorem claim_C1_counterexample :
    execute_javascript wWasmSlow [] [] [] none
        (some { time_ms := some 5, memory_bytes := none }) =
      Except.ok (mkExecResult wWasmSlow)
    ∧ 5 < wWasmSlow.childExitMs := ⟨rfl, by decide⟩

/-- C1, amended: on non-wasm32 builds, when `limits.time_ms` is present
and the child has not exited within the window, the child is killed and —
provided the kill call itself succeeds — the call returns `Timeout`,
whose variant carries no `ExecResult` and no partial `StageResult`; if
the child exits within the window the call proceeds normally and does not
return `Timeout`.  (On wasm32 builds the limit is ignored; if the kill
fails, `Internal` is returned instead.) -/
theorem claim_C1_amended (w : World) (code : List Nat) (args : List String)
    (envVars : List (String × String)) (stdin : Option String) (t : Nat)
    (mem : Option Nat) (hwasm : w.wasm = false) (htemp : w.tempFileOk = true)
    (hspawn : w.nodeSpawnOk = true ∨ w.nodejsSpawnOk = true)
    (hstdin : stdin = none ∨ w.stdinWriteOk = true) :
    (t < w.childExitMs → w.killOk = true →
       execute_javascript w code args envVars stdin
           (some { time_ms := some t, memory_bytes := mem }) =
         Except.error ExecError.timeout)
    ∧ (w.childExitMs ≤ t →
       execute_javascript w code args envVars stdin
           (some { time_ms := some t, memory_bytes := mem }) =
         Except.ok (mkExecResult w)) := by
  have hcmd : ∃ c, launchedCmd w args envVars stdin.isSome = some c := by
    by_cases hn : w.nodeSpawnOk
    · exact ⟨primaryCmd w.tempPath args envVars stdin.isSome, by simp [launchedCmd, hn]⟩
    · rcases hspawn with h | h
      · exact absurd h hn
      · exact ⟨fallbackCmd w.tempPath args stdin.isSome, by simp [launchedCmd, hn, h]⟩
  obtain ⟨c, hc⟩ := hcmd
  have hsw : ¬ (stdin.isSome ∧ w.stdinWriteOk = false) := by
    rcases hstdin with h | h
    · simp [h]
    · simp [h]
  constructor
  · intro ht hkill
    simp only [execute_javascript, htemp, hc, hwasm]
    rw [if_neg (by simp), if_neg hsw]
    simp only [Bool.false_eq_true, if_false]
    rw [if_neg (by omega), if_pos hkill]
  · intro ht
    simp only [execute_javascript, htemp, hc, hwasm]
    rw [if_neg (by simp), if_neg hsw]
    simp only [Bool.false_eq_true, if_false]
    rw [if_pos ht]

theorem claim_C1_witness :
    wNativeSlow.wasm = false ∧ 5 < wNativeSlow.childExitMs ∧
    execute_javascript wNativeSlow [] [] [] none
        (some { time_ms := some 5, memory_bytes := none }) =
      Except.error ExecError.timeout :=
  ⟨rfl, by decide,
    (claim_C1_amended wNativeSlow [] [] [] none 5 none rfl rfl (Or.inl rfl)
      (Or.inl rfl)).1 (by decide) rfl⟩

/-- C2, counterexample: when the child could not report an exit status
(`status.code()` is `None`), the returned `StageResult.exit_code` is not
`None` — `unwrap_or(-1)` substitutes the sentinel `-1`
(lib.rs line 191). -/
theorem claim_C2_counterexample :
    execute_javascript wKilled [] [] [] none none = Except.ok (mkExecResult wKilled)
    ∧ wKilled.childCode = none
    ∧ (mkExecResult wKilled).run.exit_code = some (-1) := ⟨rfl, rfl, rfl⟩

/-- C2, amended: for every successful execution, `exit_code` is always
`some`: the child's reported status code when available, and the sentinel
`-1` when the child could not report one (e.g. killed by a signal); it is
never `None`. -/
theorem claim_C2_amended (w : World) (code : List Nat) (args : List String)
    (envVars : List (String × String)) (stdin : Option String)
    (constraints : Option Limits) (r : ExecResult)
    (h : execute_javascript w code args envVars stdin constraints = Except.ok r) :
    r.run.exit_code = some (w.childCode.getD (-1))
    ∧ r.run.exit_code ≠ none
    ∧ (∀ n : Int, w.childCode = some n → r.run.exit_code = some n) := by
  have hr : r = mkExecResult w := execute_javascript_ok_eq w code args envVars stdin constraints r h
  subst hr
  refine ⟨rfl, by simp [mkExecResult, mkStageResult], ?_⟩
  intro n hn
  simp [mkExecResult, mkStageResult, hn]

theorem claim_C2_witness :
    execute_javascript wKilled [] [] [] none none = Except.ok (mkExecResult wKilled)
    ∧ (mkExecResult wKilled).run.exit_code = some (wKilled.childCode.getD (-1))
    ∧ (mkExecResult wKilled).run.exit_code ≠ none :=
  ⟨rfl, (claim_C2_amended wKilled [] [] [] none none (mkExecResult wKilled) rfl).1,
    (claim_C2_amended wKilled [] [] [] none none (mkExecResult wKilled) rfl).2.1⟩

/-- C3, counterexample: on the fallback launch path the caller-supplied
env entries are dropped — the `or_else` closures (lib.rs lines 117-127,
133-143) rebuild the command with the temp path and `args` only, never
calling `.env(...)`.  With caller env `[("FOO", "bar")]` and an empty
ambient environment, the launched fallback command resolves `FOO` to
nothing. -/
theorem claim_C3_counterexample :
    launchedCmd wFallback [] [("FOO", "bar")] false =
      some (fallbackCmd "/tmp/exec.js" [] false)
    ∧ (fallbackCmd "/tmp/exec.js" [] false).envOverlay = []
    ∧ mapLookup "FOO" (childEnv [] (fallbackCmd "/tmp/exec.js" [] false)) = none :=
  ⟨rfl, rfl, rfl⟩

/-- C3, amended: on the primary launch path the child is launched with
`args` appended after the temp-file path and with the caller's env
entries layered over (not replacing) the ambient environment; on the
fallback path (`nodejs`, tried when `node` fails to spawn) `args` are
still appended but the caller-supplied env entries are omitted, so the
child sees only the ambient environment. -/
theorem claim_C3_amended (w : World) (args : List String)
    (envVars ambient : List (String × String)) (piped : Bool) :
    (w.nodeSpawnOk = true →
       launchedCmd w args envVars piped = some (primaryCmd w.tempPath args envVars piped)
       ∧ (primaryCmd w.tempPath args envVars piped).args = w.tempPath :: args
       ∧ (∀ k, k ∉ envVars.map Prod.fst →
            mapLookup k (childEnv ambient (primaryCmd w.tempPath args envVars piped)) =
              mapLookup k ambient)
       ∧ ((envVars.map Prod.fst).Nodup → ∀ k v, (k, v) ∈ envVars →
            mapLookup k (childEnv ambient (primaryCmd w.tempPath args envVars piped)) =
              some v))
    ∧ (w.nodeSpawnOk = false → w.nodejsSpawnOk = true →
       launchedCmd w args envVars piped = some (fallbackCmd w.tempPath args piped)
       ∧ (fallbackCmd w.tempPath args piped).args = w.tempPath :: args
       ∧ (fallbackCmd w.tempPath args piped).envOverlay = []
       ∧ childEnv ambient (fallbackCmd w.tempPath args piped) = ambient) := by
  constructor
  · intro hn
    refine ⟨by simp [launchedCmd, hn], rfl, ?_, ?_⟩
    · intro k hk
      exact mapLookup_applyEnvList_not_mem envVars ambient k hk
    · intro hnd k v hmem
      exact mapLookup_applyEnvList_mem envVars ambient k v hnd hmem
  · intro hn hf
    exact ⟨by simp [launchedCmd, hn, hf], rfl, rfl, rfl⟩

theorem claim_C3_witness :
    wFallback.nodeSpawnOk = false ∧ wFallback.nodejsSpawnOk = true ∧
    launchedCmd wFallback ["x"] [("FOO", "bar")] true =
      some (fallbackCmd wFallback.tempPath ["x"] true)
    ∧ (fallbackCmd wFallback.tempPath ["x"] true).envOverlay = [] :=
  ⟨rfl, rfl,
    ((claim_C3_amended wFallback ["x"] [("FOO", "bar")] [] true).2 rfl rfl).1,
    ((claim_C3_amended wFallback ["x"] [("FOO", "bar")] [] true).2 rfl rfl).2.2.1⟩

/-- C4, confirmed: for every byte sequence `b`, decoding the
standard-alphabet base64 encoding of `b` with encoding `base64` returns
exactly `b`; decoding the hex encoding of `b` with encoding `hex`
returns exactly `b`; and with encoding `utf8` or no declared encoding
`decode_content` returns the input bytes unchanged. -/
theorem claim_C4 (b : List Nat) (name : String) (h : ∀ x ∈ b, x < 256) :
    decode_content { name := name, content := b64encode b, encoding := some Encoding.base64 } =
      Except.ok b
    ∧ decode_content { name := name, content := hexEncode b, encoding := some Encoding.hex } =
      Except.ok b
    ∧ decode_content { name := name, content := b, encoding := some Encoding.utf8 } =
      Except.ok b
    ∧ decode_content { name := name, content := b, encoding := none } = Except.ok b := by
  refine ⟨?_, ?_, rfl, rfl⟩
  · show (if validUtf8 (b64encode b) then _ else _) = Except.ok b
    rw [validUtf8_of_ascii (b64encode b) (b64encode_ascii b)]
    simp only [if_true]
    rw [b64_roundtrip b h]
  · show (if validUtf8 (hexEncode b) then _ else _) = Except.ok b
    rw [validUtf8_of_ascii (hexEncode b) (hexEncode_ascii b h)]
    simp only [if_true]
    rw [hex_roundtrip b h]

theorem claim_C4_witness :
    (∀ x ∈ [0, 255, 104, 200], x < 256)
    ∧ decode_content { name := "f.bin", content := b64encode [0, 255, 104, 200], encoding := some Encoding.base64 } = Except.ok [0, 255, 104, 200]
    ∧ decode_content { name := "f.bin", content := hexEncode [0, 255, 104, 200], encoding := some Encoding.hex } = Except.ok [0, 255, 104, 200] :=
  ⟨by decide, (claim_C4 [0, 255, 104, 200] "f.bin" (by decide)).1,
    (claim_C4 [0, 255, 104, 200] "f.bin" (by decide)).2.1⟩

/-- C5, confirmed: `Executor::run` rejects a non-JavaScript language kind
with `UnsupportedLanguage` before anything else; with the supported kind
and an empty file list it fails with `Internal`; otherwise the file
executed is the first file named `main.js`/`index.js` when one exists and
the first supplied file otherwise. -/
theorem claim_C5 (w : World) (lang : Language) (files : List File)
    (stdin : Option String) (args : List String) (env : List (String × String))
    (constraints : Option Limits) :
    (lang.kind ≠ LanguageKind.javascript →
       Executor.run w lang files stdin args env constraints =
         Except.error Error.unsupportedLanguage)
    ∧ (lang.kind = LanguageKind.javascript → files = [] →
       Executor.run w lang files stdin args env constraints =
         Except.error (Error.internal "No JavaScript files provided"))
    ∧ (∀ g, files.find? isMainName = some g → selectMain files = some g)
    ∧ (∀ f rest, files = f :: rest → files.find? isMainName = none →
         selectMain files = some f)
    ∧ (lang.kind = LanguageKind.javascript → ∀ g, selectMain files = some g →
       Executor.run w lang files stdin args env constraints =
         execFile w g args env stdin constraints) := by
  refine ⟨?_, ?_, ?_, ?_, ?_⟩
  · intro h
    simp only [Executor.run, if_pos h]
  · intro hk hf
    subst hf
    simp [Executor.run, hk, selectMain]
  · intro g hg
    simp only [selectMain, hg]
  · intro f rest hf hg
    subst hf
    simp only [selectMain, hg, List.head?]
  · intro hk g hg
    have hne : ¬ lang.kind ≠ LanguageKind.javascript := by simp [hk]
    simp only [Executor.run, if_neg hne, hg]

theorem claim_C5_witness :
    ({ kind := LanguageKind.python, version := none } : Language).kind ≠
        LanguageKind.javascript
    ∧ Executor.run wKilled { kind := LanguageKind.python, version := none } [fPlain]
        none [] [] none = Except.error Error.unsupportedLanguage
    ∧ Executor.run wKilled jsLang [] none [] [] none =
        Except.error (Error.internal "No JavaScript files provided")
    ∧ [fPlain, fIndex].find? isMainName = some fIndex
    ∧ selectMain [fPlain, fIndex] = some fIndex
    ∧ [fPlain].find? isMainName = none
    ∧ selectMain [fPlain] = some fPlain :=
  ⟨by decide,
    (claim_C5 wKilled { kind := LanguageKind.python, version := none } [fPlain]
      none [] [] none).1 (by decide),
    (claim_C5 wKilled jsLang [] none [] [] none).2.1 rfl rfl,
    by decide,
    (claim_C5 wKilled jsLang [fPlain, fIndex] none [] [] none).2.2.1 fIndex (by decide),
    by decide,
    (claim_C5 wKilled jsLang [fPlain] none [] [] none).2.2.2.1 fPlain [] rfl (by decide)⟩

/-- C6, confirmed: after a successful `upload` of file `f`,
`download` of `f.name` on the same session returns exactly the decoded
bytes of `f` (never the raw transport-encoded content), and `download` of
a name that is not stored fails with `Internal` (not-found); `download`
performs no execution — it is a pure read of the registry and leaves it
untouched. -/
theorem claim_C6 (st : RegistryState) (hnd : Nat) (s : ExecutionSession)
    (f : File) (bytes : List Nat) (path : String) :
    (mapLookup hnd st.sessions = some s → decode_content f = Except.ok bytes →
       Session.download (Session.upload st hnd f).2 hnd f.name = Except.ok bytes)
    ∧ (mapLookup hnd st.sessions = some s → mapLookup path s.files = none →
       Session.download st hnd path =
         Except.error (Error.internal ("File " ++ path ++ " not found"))) := by
  constructor
  · intro hs hdec
    simp only [Session.upload, hs, ExecutionSession.upload_file, hdec]
    simp only [Session.download, mapLookup_insert_self, mapLookup_insert_self]
  · intro hs hpath
    simp only [Session.download, hs, hpath]

theorem claim_C6_witness :
    decode_content fGoodB64 = Except.ok [104, 105]
    ∧ Session.download (Session.upload stWithA 1 fGoodB64).2 1 "a.js" =
        Except.ok [104, 105]
    ∧ Session.download stWithA 1 "b.js" =
        Except.error (Error.internal ("File " ++ "b.js" ++ " not found")) :=
  ⟨rfl,
    (claim_C6 stWithA 1 { language := jsLang, files := [("a.js", [104])], working_dir := "/" } fGoodB64 [104, 105] "b.js").1 (by decide) rfl,
    (claim_C6 stWithA 1 { language := jsLang, files := [("a.js", [104])], working_dir := "/" } fGoodB64 [104, 105] "b.js").2 (by decide) (by decide)⟩

/-- C7, confirmed: immediately after `create` the session's `list_files`
is empty; a successful `upload` keeps the stored names duplicate-free and
makes the uploaded name appear exactly once (re-upload replaces rather
than duplicates); and `list_files` does not depend on its `dir`
argument. -/
theorem claim_C7 (st : RegistryState) (lang : Language) (hnd : Nat)
    (d d1 d2 : String) (f : File) (s : ExecutionSession) :
    ((Session.create st lang).1 = Except.ok hnd →
       Session.list_files (Session.create st lang).2 hnd d = Except.ok [])
    ∧ (mapLookup hnd st.sessions = some s → (mapKeys s.files).Nodup →
       (Session.upload st hnd f).1 = Except.ok () →
       ∃ names, Session.list_files (Session.upload st hnd f).2 hnd d = Except.ok names
         ∧ names.count f.name = 1 ∧ names.Nodup)
    ∧ Session.list_files st hnd d1 = Session.list_files st hnd d2 := by
  refine ⟨?_, ?_, rfl⟩
  · intro hok
    unfold Session.create at hok ⊢
    cases hnew : ExecutionSession.new lang with
    | error e => rw [hnew] at hok; simp at hok
    | ok s2 =>
      rw [hnew] at hok
      have hs2 : s2.files = [] := by
        unfold ExecutionSession.new at hnew
        split at hnew
        · simp at hnew
        · simp only [Except.ok.injEq] at hnew
          rw [← hnew]
      simp only [next_session_id, Except.ok.injEq] at hok
      simp only [Session.list_files, next_session_id]
      rw [← hok]
      simp only [mapLookup_insert_self, hs2]
      rfl
  · intro hs hnd2 hok
    cases hdec : decode_content f with
    | error e =>
      simp only [Session.upload, hs, ExecutionSession.upload_file, hdec] at hok
      simp at hok
    | ok content =>
      refine ⟨mapKeys (mapInsert f.name content s.files), ?_, ?_, ?_⟩
      · simp only [Session.upload, hs, ExecutionSession.upload_file, hdec]
        simp only [Session.list_files, mapLookup_insert_self]
      · exact count_mapKeys_mapInsert f.name content s.files hnd2
      · exact mapKeys_mapInsert_nodup f.name content s.files hnd2

theorem claim_C7_witness :
    ((Session.create initialState jsLang).1 = Except.ok 1
      ∧ Session.list_files (Session.create initialState jsLang).2 1 "/" = Except.ok [])
    ∧ ((Session.upload stWithA 1 fGood2).1 = Except.ok ()
      ∧ ∃ names,
          Session.list_files (Session.upload stWithA 1 fGood2).2 1 "/" = Except.ok names
          ∧ names.count "a.js" = 1 ∧ names.Nodup)
    ∧ Session.list_files stWithA 1 "x" = Session.list_files stWithA 1 "y" :=
  ⟨⟨rfl, (claim_C7 initialState jsLang 1 "/" "x" "y" fGood2 { language := jsLang, files := [("a.js", [104])], working_dir := "/" }).1 rfl⟩,
    ⟨rfl, (claim_C7 stWithA jsLang 1 "/" "x" "y" fGood2 { language := jsLang, files := [("a.js", [104])], working_dir := "/" }).2.1 (by decide) (by decide) rfl⟩,
    (claim_C7 stWithA jsLang 1 "/" "x" "y" fGood2 { language := jsLang, files := [("a.js", [104])], working_dir := "/" }).2.2⟩

/-- C8, confirmed: `close` is infallible — its signature carries no error
and closing an unknown (or already-closed) handle leaves the registry
exactly as it was — while `upload`, `run`, `download`, `list_files` and
`set_working_dir` on an unknown or closed handle all fail with the
`Internal` not-found error. -/
theorem claim_C8 (w : World) (st : RegistryState) (hnd : Nat) (f : File)
    (ep path d wd : String) (args : List String) (stdin : Option String)
    (env : List (String × String)) (constraints : Option Limits)
    (h : mapLookup hnd st.sessions = none) :
    Session.close st hnd = st
    ∧ (Session.upload st hnd f).1 = Except.error (Error.internal "Session not found")
    ∧ Session.run w st hnd ep args stdin env constraints =
        Except.error (Error.internal "Session not found")
    ∧ Session.download st hnd path = Except.error (Error.internal "Session not found")
    ∧ Session.list_files st hnd d = Except.error (Error.internal "Session not found")
    ∧ (Session.set_working_dir st hnd wd).1 =
        Except.error (Error.internal "Session not found") := by
  refine ⟨?_, ?_, ?_, ?_, ?_, ?_⟩
  · show ({ st with sessions := mapRemove hnd st.sessions } : RegistryState) = st
    rw [mapRemove_of_lookup_none hnd st.sessions h]
  · simp only [Session.upload, h]
  · simp only [Session.run, h]
  · simp only [Session.download, h]
  · simp only [Session.list_files, h]
  · simp only [Session.set_working_dir, h]

theorem claim_C8_witness :
    mapLookup 7 initialState.sessions = none
    ∧ Session.close initialState 7 = initialState
    ∧ (Session.upload initialState 7 fGood2).1 =
        Except.error (Error.internal "Session not found")
    ∧ Session.download initialState 7 "a.js" =
        Except.error (Error.internal "Session not found") :=
  ⟨rfl,
    (claim_C8 wKilled initialState 7 fGood2 "e" "a.js" "/" "/" [] none [] none rfl).1,
    (claim_C8 wKilled initialState 7 fGood2 "e" "a.js" "/" "/" [] none [] none rfl).2.1,
    (claim_C8 wKilled initialState 7 fGood2 "e" "a.js" "/" "/" [] none [] none rfl).2.2.2.1⟩

theorem nthHandle_mod (n : Nat) : nthHandle n = (1 + n) % u32Mod :=
  createN_counter n

theorem u32_wrap : (1 + u32Mod) % u32Mod = 1 := by
  simp [u32Mod]

/-- C9, counterexample: the handle counter is a `u32`; create call
number `2 ^ 32` (0-indexed) is issued the same handle `1` as create call
number `0`, because `SESSION_COUNTER += 1` wraps modulo `2 ^ 32` — so a
handle is eventually reused and that create call does not yield a handle
strictly greater than all previously allocated ones. -/
theorem claim_C9_counterexample :
    nthHandle 0 = 1 ∧ nthHandle u32Mod = 1
    ∧ (Session.create (createN 0) jsLang).1 = Except.ok 1
    ∧ (Session.create (createN u32Mod) jsLang).1 = Except.ok 1 :=
  ⟨rfl, (nthHandle_mod u32Mod).trans u32_wrap, rfl,
    (congrArg Prod.fst (Session_create_js (createN u32Mod))).trans
      (congrArg Except.ok ((createN_counter u32Mod).trans u32_wrap))⟩

/-- C9, amended: handles come from a process-wide `u32` counter starting
at 1; every create yields a handle strictly greater than all previously
allocated ones, and no handle is reused even after `close`, as long as
fewer than `2 ^ 32` creates occur in the process lifetime — the counter
wraps modulo `2 ^ 32` after that (release-profile `u32` overflow
semantics). -/
theorem claim_C9_amended (m n : Nat) (hmn : m < n) (hn : n + 1 < u32Mod) :
    nthHandle 0 = 1 ∧ nthHandle m < nthHandle n := by
  constructor
  · rfl
  · rw [nthHandle_eq m (by omega), nthHandle_eq n hn]
    omega

theorem claim_C9_witness :
    (0 : Nat) < 1 ∧ 1 + 1 < u32Mod ∧ nthHandle 0 = 1 ∧ nthHandle 0 < nthHandle 1 :=
  ⟨by decide, by decide, (claim_C9_amended 0 1 (by decide) (by decide)).1,
    (claim_C9_amended 0 1 (by decide) (by decide)).2⟩

/-- C10, confirmed: when a file's content fails to decode, `upload`
returns exactly the mapped decode error and leaves the whole registry —
in particular the session's file table — unchanged, so a previous upload
under the same name is still downloadable with its old bytes. -/
theorem claim_C10 (st : RegistryState) (hnd : Nat) (s : ExecutionSession)
    (f : File) (e : ExecError) (hs : mapLookup hnd st.sessions = some s)
    (hdec : decode_content f = Except.error e) :
    Session.upload st hnd f = (Except.error (execErrorToError e), st)
    ∧ Session.download (Session.upload st hnd f).2 hnd f.name =
        Session.download st hnd f.name := by
  have hup : Session.upload st hnd f = (Except.error (execErrorToError e), st) := by
    simp only [Session.upload, hs, ExecutionSession.upload_file, hdec]
  exact ⟨hup, by rw [hup]⟩

theorem claim_C10_witness :
    decode_content fBadB64 = Except.error (ExecError.internal "Base64 decode error")
    ∧ Session.upload stWithA 1 fBadB64 =
        (Except.error (execErrorToError (ExecError.internal "Base64 decode error")), stWithA)
    ∧ Session.download (Session.upload stWithA 1 fBadB64).2 1 "a.js" =
        Session.download stWithA 1 "a.js"
    ∧ Session.download stWithA 1 "a.js" = Except.ok [104] :=
  ⟨rfl,
    (claim_C10 stWithA 1 { language := jsLang, files := [("a.js", [104])], working_dir := "/" } fBadB64 (ExecError.internal "Base64 decode error") (by decide) rfl).1,
    (claim_C10 stWithA 1 { language := jsLang, files := [("a.js", [104])], working_dir := "/" } fBadB64 (ExecError.internal "Base64 decode error") (by decide) rfl).2,
    rfl⟩

end GolemExec
